import Mathlib

/-!
# Verification of the DROSS Command Center client synchronization core

Shallow embedding of the realtime synchronization logic of the dashboard
client (`src/static/script.js`): the graph synchronizer (`loadGraph`), the
status change detector (the `memory_count` block of `fetchStatus`), the
goal rendering branch of `fetchStatus`, the bounded log/thought buffers
(`addLog` / `addThought`), the message dispatcher (`ws.onmessage`), the
send-path validation (`sendMessage`), and the reconnecting connection
manager (`connectWebSocket` with its backoff and timer bookkeeping).

DOM containers are modelled as the lists of the text contents of their
child elements; impure rendering details (timestamps prepended by
`addLog`, colors, scrolling) are elided.  Machine-level JS values that
the logic branches on (missing fields, non-open sockets) are modelled
with `Option`.
-/

namespace Dross

/-! ## Graph synchronizer (`loadGraph`)

`graphData = { nodes: new vis.DataSet(), edges: new vis.DataSet() }`:
the client graph state is the insertion-ordered contents of the two
datasets.  Edges carry no id from the API; `loadGraph` deduplicates them
by the composite string key `` `${e.from}|${e.to}|${e.label}` ``. -/

/-- A graph node as served by `/api/memory/graph`: identified by `id`
(display metadata does not participate in the merge logic beyond being
carried along, so it is one opaque field). -/
structure GNode where
  id : String
  label : String
  deriving DecidableEq, Repr

/-- A graph edge as served by `/api/memory/graph`: no id, deduplicated
by the composite key `from|to|label`. -/
structure GEdge where
  «from» : String
  «to» : String
  label : String
  deriving DecidableEq, Repr

/-- The node/edge payload of a `/api/memory/graph` response
(`data.nodes`, `data.edges`). -/
structure GData where
  nodes : List GNode
  edges : List GEdge
  deriving DecidableEq, Repr

/-- `ClientGraphState`: the cumulative contents of `graphData.nodes`
and `graphData.edges`. -/
structure GState where
  nodes : List GNode
  edges : List GEdge
  deriving DecidableEq, Repr

/-- `existingNodeIds.has(n.id)` — membership of an id in the id set of
the held nodes (`new Set(graphData.nodes.getIds())`). -/
def idMem (i : String) (ns : List GNode) : Bool :=
  ns.any (fun m => m.id == i)

/-- Composite edge key `` `${e.from}|${e.to}|${e.label}` ``. -/
def edgeKey (e : GEdge) : String :=
  e.«from» ++ "|" ++ e.«to» ++ "|" ++ e.label

/-- `existingEdgeKeys.has(key(e))` — membership of an edge's composite
key in the key set of the held edges. -/
def keyMem (k : String) (es : List GEdge) : Bool :=
  es.any (fun e => edgeKey e == k)

/-- `data.nodes.filter(n => !existingNodeIds.has(n.id))`. -/
def newNodes (s : GState) (d : GData) : List GNode :=
  d.nodes.filter (fun n => !idMem n.id s.nodes)

/-- `data.edges.filter(e => !existingEdgeKeys.has(key(e)))`. -/
def newEdges (s : GState) (d : GData) : List GEdge :=
  d.edges.filter (fun e => !keyMem (edgeKey e) s.edges)

/-- The forced-update branch of `loadGraph`: add the node delta and the
edge delta to the datasets (`graphData.nodes.add(newNodes)`,
`graphData.edges.add(newEdges)`). -/
def mergeGraph (s : GState) (d : GData) : GState :=
  { nodes := s.nodes ++ newNodes s d
    edges := s.edges ++ newEdges s d }

/-- The graph view's synchronizer state: whether the vis network has
been created (`network !== null`, i.e. the initial seed happened) and
the held `ClientGraphState`. -/
structure GSync where
  network : Bool
  state : GState
  deriving DecidableEq, Repr

/-- `loadGraph(force)`: returns unchanged when the container is missing
or the response has no `nodes` field; seeds wholesale on first
invocation; merges the deltas when `force`; otherwise does nothing. -/
def loadGraph (force : Bool) (hasContainer : Bool) (resp : Option GData)
    (g : GSync) : GSync :=
  if !hasContainer then g
  else
    match resp with
    | none => g
    | some d =>
      if !g.network then { network := true, state := { nodes := d.nodes, edges := d.edges } }
      else if force then { network := true, state := mergeGraph g.state d }
      else g

/-! ## Status change detector (the `memory_count` block of `fetchStatus`)

```js
const count = data.memory_count || 0;
els.memoryCount.innerText = count;
if (count > lastMemoryCount) {
    if (lastMemoryCount !== -1 && document.getElementById('view-graph').classList.contains('active')) {
        loadGraph(true);
    }
    lastMemoryCount = count;
}
```
`lastMemoryCount` is initialized to the sentinel `-1`. -/

/-- Initial value of `lastMemoryCount`. -/
def initialLastMemoryCount : Int := -1

/-- One snapshot through the detector: given the previous
`lastMemoryCount`, the snapshot's (coerced) `memory_count` and whether
the graph view is active, returns (forced `loadGraph(true)` triggered?,
new `lastMemoryCount`). -/
def statusMemStep (last : Int) (count : Int) (graphActive : Bool) :
    Bool × Int :=
  if count > last then
    (decide (last ≠ -1) && graphActive, count)
  else
    (false, last)

/-! ## Goal rendering branch of `fetchStatus`

```js
if (data.goal && data.goal.goal && data.goal.goal !== "Idle") {
    els.goalTitle.innerText = data.goal.goal;
    els.goalTitle.style.color = "var(--text-main)";
    renderSubtasks(data.goal.subtasks || []);
} else {
    els.goalTitle.innerText = "No active goal";
    els.goalTitle.style.color = "var(--text-dim)";
    els.subtaskList.innerHTML = "<div class='empty-state'>System Idle</div>";
}
```
A missing `data.goal` is `Option.none`; a falsy `data.goal.goal` is the
empty string. -/

/-- A subtask of the active goal (`{description, status}`). -/
structure Subtask where
  description : String
  status : String
  deriving DecidableEq, Repr

/-- The `data.goal` payload: `{goal, subtasks}` (a missing `subtasks`
field is coerced to `[]` by `|| []`, so it is a plain list here). -/
structure Goal where
  goal : String
  subtasks : List Subtask
  deriving DecidableEq, Repr

/-- What the subtask list container shows: either the rendered subtasks
of the active goal (`renderSubtasks`) or the literal `System Idle`
placeholder. -/
inductive SubtaskView where
  | rendered (tasks : List Subtask)
  | systemIdle
  deriving DecidableEq, Repr

/-- The goal panel: title text, whether the title is dimmed
(`--text-dim` vs `--text-main`), and the subtask list contents. -/
structure GoalView where
  title : String
  dimmed : Bool
  subtasks : SubtaskView
  deriving DecidableEq, Repr

/-- The goal branch of `fetchStatus`. -/
def renderGoal (g : Option Goal) : GoalView :=
  match g with
  | some g =>
    if g.goal ≠ "" ∧ g.goal ≠ "Idle" then
      { title := g.goal, dimmed := false, subtasks := .rendered g.subtasks }
    else
      { title := "No active goal", dimmed := true, subtasks := .systemIdle }
  | none =>
    { title := "No active goal", dimmed := true, subtasks := .systemIdle }

/-! ## Bounded stream buffers (`addLog`, `addThought`)

Containers are the text contents of their children, front of the list =
first child.  `addLog` appends and then runs
`while (children.length > 200) removeChild(firstChild)`; `addThought`
prepends and then runs
`if (children.length > 20) removeChild(lastChild)`.  (The timestamp
`addLog` prepends to the text is impure rendering and elided; entries
are the raw text.) -/

/-- `while (l.length > cap) remove first child`. -/
def evictFront (cap : Nat) : List α → List α
  | [] => []
  | x :: t => if (x :: t).length > cap then evictFront cap t else x :: t

/-- Capacity of the operational log console. -/
def logCap : Nat := 200

/-- Capacity of the thought stream. -/
def thoughtCap : Nat := 20

/-- `addLog`: append the line, then evict from the front while over
capacity 200. -/
def addLog (buf : List α) (x : α) : List α :=
  evictFront logCap (buf ++ [x])

/-- `addThought`: prepend the entry, then remove the last child if over
capacity 20. -/
def addThought (buf : List α) (x : α) : List α :=
  let b := x :: buf
  if b.length > thoughtCap then b.dropLast else b

/-! ## JS string primitives used by the dispatcher and the send path

JS strings are modelled through their character lists.  `\s` (and
`String.prototype.trim`) covers the ECMAScript WhiteSpace and
LineTerminator sets; `.` in a regex without the `s` flag excludes the
four LineTerminator characters. -/

/-- ECMAScript `\s`: tab, LF, VT, FF, CR, space, NBSP, and the Unicode
space separators, line/paragraph separators and BOM. -/
def isJsSpace (c : Char) : Bool :=
  let n := c.toNat
  n == 9 || n == 10 || n == 11 || n == 12 || n == 13 || n == 32 ||
  n == 160 || n == 0x1680 || (decide (0x2000 ≤ n) && decide (n ≤ 0x200a)) ||
  n == 0x2028 || n == 0x2029 || n == 0x202f || n == 0x205f ||
  n == 0x3000 || n == 0xfeff

/-- ECMAScript LineTerminator: LF, CR, LS, PS — the characters `.`
does not match. -/
def isLineTerm (c : Char) : Bool :=
  let n := c.toNat
  n == 10 || n == 13 || n == 0x2028 || n == 0x2029

/-- `String.prototype.trim` on a character list. -/
def trimChars (l : List Char) : List Char :=
  ((l.dropWhile isJsSpace).reverse.dropWhile isJsSpace).reverse

/-- `String.prototype.trim`. -/
def jsTrim (s : String) : String :=
  String.mk (trimChars s.toList)

/-- Indices at which `pat` occurs in the list (in increasing order). -/
def occIndices (pat : List Char) : List Char → List Nat
  | [] => if pat.isPrefixOf ([] : List Char) then [0] else []
  | c :: t =>
    (if pat.isPrefixOf (c :: t) then [0] else []) ++
      (occIndices pat t).map (· + 1)

/-- `String.prototype.includes` on character lists. -/
def containsSub (pat s : List Char) : Bool :=
  !(occIndices pat s).isEmpty

/-- The heartbeat marker the server prefixes to autonomy log lines. -/
def heartbeatMarker : List Char := "Heartbeat:".toList

/-- The optional secondary marker of the heartbeat regex. -/
def autonomyMarker : List Char := "Autonomy:".toList

/-- Start of the line containing the position just past `pre`: the index
after the last LineTerminator of `pre`, or `0` if there is none. -/
def lineStart (pre : List Char) : Nat :=
  match pre.reverse.findIdx? isLineTerm with
  | some k => pre.length - k
  | none => 0

/-- `s.replace(/.*Heartbeat:\s*(Autonomy:\s*)?/, "")`: the leftmost
match of the pattern starts at the beginning of the line holding the
first `Heartbeat:` occurrence; the greedy `.*` (which cannot cross a
LineTerminator) extends to the last `Heartbeat:` occurrence reachable
from that line start without crossing a LineTerminator; after it the
greedy `\s*` swallows whitespace and the optional `Autonomy:`+`\s*`
group applies exactly when `Autonomy:` follows that whitespace.  The
match is removed from the string. -/
def stripHeartbeat (s : List Char) : List Char :=
  match (occIndices heartbeatMarker s).head? with
  | none => s
  | some j =>
    let ls := lineStart (s.take j)
    let cands := (occIndices heartbeatMarker s).filter
      (fun j2 => !((s.take j2).drop ls).any isLineTerm)
    let jstar := cands.getLast?.getD j
    let rest := (s.drop (jstar + heartbeatMarker.length)).dropWhile isJsSpace
    let rest2 :=
      if autonomyMarker.isPrefixOf rest then
        (rest.drop autonomyMarker.length).dropWhile isJsSpace
      else rest
    s.take ls ++ rest2

/-- `data.content.includes("Heartbeat:")`. -/
def hasHeartbeat (s : String) : Bool :=
  containsSub heartbeatMarker s.toList

/-- `data.content.replace(/.*Heartbeat:\s*(Autonomy:\s*)?/, "").trim()`. -/
def extractThought (s : String) : String :=
  String.mk (trimChars (stripHeartbeat s.toList))

/-! ## Message dispatcher (`ws.onmessage`)

The parsed inbound payload dispatches on `data.type`; the state a
handler can touch is the chat transcript, the status label and the two
bounded buffers.  `refresh_status` / `refresh_journal` only trigger
refetches (no buffer state), and unknown tags fall through. -/

/-- The client UI state the dispatcher updates. -/
structure UIState where
  logs : List String
  thoughts : List String
  messages : List (String × String)
  status : String
  deriving DecidableEq, Repr

/-- A parsed inbound event, discriminated by `data.type`. -/
inductive InEvent where
  | response (content : String)
  | statusEv (status : String)
  | log (content : String)
  | refreshStatus
  | refreshJournal
  | unknown
  deriving DecidableEq, Repr

/-- The `ws.onmessage` switch. -/
def dispatch (e : InEvent) (st : UIState) : UIState :=
  match e with
  | .response c =>
    { st with messages := st.messages ++ [("assistant", c)], status := "IDLE" }
  | .statusEv s => { st with status := s.toUpper }
  | .log c =>
    let st1 := { st with logs := addLog st.logs c }
    if hasHeartbeat c then
      let thought := extractThought c
      if thought ≠ "" then
        { st1 with thoughts := addThought st1.thoughts thought }
      else st1
    else st1
  | .refreshStatus => st
  | .refreshJournal => st
  | .unknown => st

/-! ## Send path (`sendMessage`)

```js
const text = els.userInput.value.trim();
if (!text) return;
if (!ws || ws.readyState !== WebSocket.OPEN) {
    addLog("SYSTEM: Cannot send — uplink not connected.");
    return;
}
addMessage("user", text);
ws.send(text);
els.userInput.value = "";
updateStatus("THINKING");
```
-/

/-- `WebSocket.OPEN`. -/
def wsOPEN : Nat := 1

/-- The state `sendMessage` reads and writes: the input field, the
socket (`none` = no socket object, otherwise its `readyState`), the log
buffer, the transcript, the frames handed to `ws.send`, and the status
label. -/
structure ChatState where
  inputValue : String
  ws : Option Nat
  logs : List String
  messages : List (String × String)
  sent : List String
  status : String
  deriving DecidableEq, Repr

/-- The notice logged when sending while disconnected. -/
def cannotSendNotice : String := "SYSTEM: Cannot send — uplink not connected."

/-- `sendMessage`. -/
def sendMessage (st : ChatState) : ChatState :=
  let text := jsTrim st.inputValue
  if text = "" then st
  else if st.ws ≠ some wsOPEN then
    { st with logs := addLog st.logs cannotSendNotice }
  else
    { st with
        messages := st.messages ++ [("user", text)]
        sent := st.sent ++ [text]
        inputValue := ""
        status := "THINKING" }

/-! ## Connection manager (`connectWebSocket`)

Lifecycle of `ws`, `reconnectDelay` and `reconnectTimer` as an event
machine.  `connectWebSocket` is invoked exactly at script start and
from the reconnection timer callback; each socket fires `onopen` at
most once (only while connecting) and `onclose` at most once (from
connecting or open).  The timer callback doubles the delay (capped)
and reconnects:

```js
ws.onopen  = () => { reconnectDelay = 1000; clearTimeout(reconnectTimer); ... };
ws.onclose = () => { ... reconnectTimer = setTimeout(() => {
                     reconnectDelay = Math.min(reconnectDelay * 2, 30000);
                     connectWebSocket(); }, reconnectDelay); };
```
-/

/-- Where the current socket is in its lifecycle: `connecting` (socket
created, neither handler fired yet), `opened`, or `waiting` (the socket
closed and its reconnection timer was scheduled). -/
inductive Phase where
  | connecting
  | opened
  | waiting
  deriving DecidableEq, Repr

/-- Connection-manager state: lifecycle phase, `reconnectDelay`, the
number of pending reconnection timers, and whether the handle stored in
`reconnectTimer` is itself still pending (so the `clearTimeout` in
`onopen` has something to cancel). -/
structure CMState where
  phase : Phase
  delay : Nat
  pending : Nat
  storedLive : Bool
  deriving DecidableEq, Repr

/-- The three externally driven transitions: the socket's `onopen`, its
`onclose`, and the reconnection timer firing. -/
inductive CMEvent where
  | eOpen
  | eClose
  | eFire
  deriving DecidableEq, Repr

/-- `let reconnectDelay = 1000`. -/
def baseDelay : Nat := 1000

/-- The 30 s backoff cap. -/
def capDelay : Nat := 30000

/-- State after the initial `connectWebSocket()` call at script load
(`reconnectTimer = null`). -/
def initCM : CMState :=
  { phase := .connecting, delay := baseDelay, pending := 0, storedLive := false }

/-- One handler execution.  Events whose guard does not hold (a handler
of a socket in the wrong phase, a timer that is not pending) leave the
state unchanged. -/
def cmStep (s : CMState) (e : CMEvent) : CMState :=
  match e with
  | .eOpen =>
    if s.phase = .connecting then
      { phase := .opened, delay := baseDelay,
        pending := if s.storedLive then s.pending - 1 else s.pending,
        storedLive := false }
    else s
  | .eClose =>
    if s.phase = .connecting ∨ s.phase = .opened then
      { phase := .waiting, delay := s.delay,
        pending := s.pending + 1, storedLive := true }
    else s
  | .eFire =>
    if s.phase = .waiting ∧ s.storedLive = true then
      { phase := .connecting, delay := min (s.delay * 2) capDelay,
        pending := s.pending - 1, storedLive := false }
    else s

/-- Run a sequence of events. -/
def cmRun (s : CMState) (es : List CMEvent) : CMState :=
  es.foldl cmStep s

/-- The backoff delays observed at each (enabled) close transition of a
run: the value logged in `onclose` and passed to `setTimeout`. -/
def closeDelays (s : CMState) : List CMEvent → List Nat
  | [] => []
  | e :: es =>
    (if e = .eClose ∧ (s.phase = .connecting ∨ s.phase = .opened) then
      [s.delay]
     else []) ++ closeDelays (cmStep s e) es

/-- The inductive invariant of the connection manager: the pending-timer
count is determined by the phase (1 while waiting, 0 otherwise), the
stored handle is pending exactly while waiting, the delay never exceeds
the cap, and a successfully opened connection has a reset delay. -/
def CMInv (s : CMState) : Prop :=
  s.pending = (if s.phase = .waiting then 1 else 0) ∧
  (s.storedLive = true ↔ s.phase = .waiting) ∧
  s.delay ≤ capDelay ∧
  (s.phase = .opened → s.delay = baseDelay)

/-- A full thought stream: twenty entries, inserted in the order
`t1`, …, `t20`, so — the stream prepends — `t20` is the first child
and `t1` the last. -/
def thoughtBuf20 : List String :=
  ["t20", "t19", "t18", "t17", "t16", "t15", "t14", "t13", "t12", "t11",
   "t10", "t9", "t8", "t7", "t6", "t5", "t4", "t3", "t2", "t1"]

lemma idMem_append (i : String) (a b : List GNode) :
    idMem i (a ++ b) = (idMem i a || idMem i b) := by
  simp [idMem, List.any_append]

lemma keyMem_append (k : String) (a b : List GEdge) :
    keyMem k (a ++ b) = (keyMem k a || keyMem k b) := by
  simp [keyMem, List.any_append]

lemma idMem_of_mem {n : GNode} {ns : List GNode} (h : n ∈ ns) :
    idMem n.id ns = true :=
  List.any_eq_true.mpr ⟨n, h, by simp⟩

lemma keyMem_of_mem {e : GEdge} {es : List GEdge} (h : e ∈ es) :
    keyMem (edgeKey e) es = true :=
  List.any_eq_true.mpr ⟨e, h, by simp⟩

/-- After a merge, every node id of the fetched set is held, so the node
delta of a re-merge of the same set is empty. -/
lemma newNodes_merge_self (s : GState) (d : GData) :
    newNodes (mergeGraph s d) d = [] := by
  apply List.filter_eq_nil_iff.mpr
  intro n hn
  simp only [mergeGraph, idMem_append, Bool.not_eq_true', Bool.not_eq_false]
  by_cases h : idMem n.id s.nodes
  · simp [h]
  · have hmem : n ∈ newNodes s d :=
      List.mem_filter.mpr ⟨hn, by simp [h]⟩
    simp [idMem_of_mem hmem]

/-- After a merge, every composite edge key of the fetched set is held,
so the edge delta of a re-merge of the same set is empty. -/
lemma newEdges_merge_self (s : GState) (d : GData) :
    newEdges (mergeGraph s d) d = [] := by
  apply List.filter_eq_nil_iff.mpr
  intro e he
  simp only [mergeGraph, keyMem_append, Bool.not_eq_true', Bool.not_eq_false]
  by_cases h : keyMem (edgeKey e) s.edges
  · simp [h]
  · have hmem : e ∈ newEdges s d :=
      List.mem_filter.mpr ⟨he, by simp [h]⟩
    simp [keyMem_of_mem hmem]

/-! ### Bounded-buffer lemmas -/

lemma evictFront_length_le (cap : Nat) (l : List α) :
    (evictFront cap l).length ≤ cap := by
  induction l with
  | nil => simp [evictFront]
  | cons x t ih =>
    rw [evictFront]
    split
    · exact ih
    · next h => exact Nat.le_of_not_lt h

lemma evictFront_of_length_le {cap : Nat} {l : List α} (h : l.length ≤ cap) :
    evictFront cap l = l := by
  cases l with
  | nil => rfl
  | cons x t => rw [evictFront, if_neg (Nat.not_lt.mpr h)]

/-! ### Connection-manager invariant lemmas -/

lemma cmInv_init : CMInv initCM := by
  unfold CMInv initCM baseDelay capDelay
  decide

lemma cmInv_step (s : CMState) (e : CMEvent) (h : CMInv s) :
    CMInv (cmStep s e) := by
  obtain ⟨ph, d, p, sl⟩ := s
  obtain ⟨hp, hs, hd, ho⟩ := h
  simp only at hp hs hd ho
  cases e <;> cases ph <;> cases sl <;>
    simp_all [cmStep, CMInv, baseDelay, capDelay]

lemma cmInv_run (es : List CMEvent) (s : CMState) (h : CMInv s) :
    CMInv (cmRun s es) := by
  induction es generalizing s with
  | nil => exact h
  | cons e es ih => exact ih (cmStep s e) (cmInv_step s e h)

/-- From any successfully opened state (delay reset to the base), four
consecutive close/retry rounds observe the delays 1000, 2000, 4000,
8000. -/
lemma closeDelays_from_opened (s : CMState) (hph : s.phase = .opened)
    (hd : s.delay = 1000) :
    closeDelays s
      [.eClose, .eFire, .eClose, .eFire, .eClose, .eFire, .eClose] =
      [1000, 2000, 4000, 8000] := by
  obtain ⟨ph, d, p, sl⟩ := s
  simp only at hph hd
  subst hph hd
  simp [closeDelays, cmStep, capDelay]

/-! ## Claim theorems -/

/-- C1: a forced merge pass after the seed is additive and idempotent:
merging the same fetched set again is a no-op; merging any fetched set
(in particular a superset) appends exactly the delta — the nodes whose
id is not yet held and the edges whose composite `from|to|label` key is
not yet held — and removes nothing (the old nodes/edges stay, as a
prefix); no appended node id or edge key was already present. -/
theorem graph_merge_additive_idempotent (s : GState) (d : GData) :
    mergeGraph (mergeGraph s d) d = mergeGraph s d ∧
    (mergeGraph s d).nodes = s.nodes ++ newNodes s d ∧
    (mergeGraph s d).edges = s.edges ++ newEdges s d ∧
    (newNodes s d).all (fun n => !idMem n.id s.nodes) = true ∧
    (newEdges s d).all (fun e => !keyMem (edgeKey e) s.edges) = true := by
  refine ⟨?_, rfl, rfl, ?_, ?_⟩
  · have h : mergeGraph (mergeGraph s d) d =
        { nodes := (mergeGraph s d).nodes ++ newNodes (mergeGraph s d) d
          edges := (mergeGraph s d).edges ++ newEdges (mergeGraph s d) d } := rfl
    rw [h, newNodes_merge_self, newEdges_merge_self, List.append_nil,
      List.append_nil]
  · exact List.all_eq_true.mpr fun n hn => (List.mem_filter.mp hn).2
  · exact List.all_eq_true.mpr fun e he => (List.mem_filter.mp he).2

/-- C2: a status snapshot triggers the forced `loadGraph(true)` pass iff
its count strictly exceeds `lastMemoryCount`, `lastMemoryCount` is not
the `-1` sentinel, and the graph view is active; in particular, while
the sentinel is still in effect (the very first snapshot), no refresh is
ever triggered. -/
theorem status_refresh_iff (last count : Int) (graphActive : Bool) :
    ((statusMemStep last count graphActive).1 = true ↔
      (last < count ∧ last ≠ -1 ∧ graphActive = true)) ∧
    (statusMemStep (-1) count graphActive).1 = false := by
  constructor
  · by_cases h : last < count
    · unfold statusMemStep
      rw [if_pos h]
      simp [h]
    · unfold statusMemStep
      rw [if_neg h]
      simp [h]
  · unfold statusMemStep
    split
    · simp
    · rfl

/-- C3 counterexample: a snapshot whose count is lower than the last
observed value (here 3 after 5, as a memory wipe produces) does not
update `lastMemoryCount` to the snapshot's count — the update happens
only inside the `count > lastMemoryCount` branch. -/
theorem lastMemoryCount_not_always_updated :
    (statusMemStep 5 3 true).2 ≠ 3 := by decide

/-- C3 amended: after processing a snapshot, `lastMemoryCount` is the
maximum of its previous value and the snapshot's count: it is set to
the count exactly when the count strictly increased (so also on the
very first snapshot with a non-negative count, and trivially agreeing
with the count when equal), and it keeps the old value when the count
decreased. -/
theorem lastMemoryCount_max_update (last count : Int) (graphActive : Bool) :
    (statusMemStep last count graphActive).2 = max last count := by
  unfold statusMemStep
  split
  · next h => exact (max_eq_right (le_of_lt h)).symm
  · next h => exact (max_eq_left (Int.not_lt.mp h)).symm

/-- C4: the reconnect delay starts at 1000 ms; four consecutive failures
from the fresh state observe the delays 1000, 2000, 4000, 8000; in
every reachable state the delay is capped at 30000 ms; and from any
reachable successfully-opened state the delay is reset so that four
consecutive future failures again observe 1000, 2000, 4000, 8000 (in
particular the next failure after an open uses 1000). -/
theorem backoff_delays (es : List CMEvent) :
    initCM.delay = 1000 ∧
    closeDelays initCM
      [.eClose, .eFire, .eClose, .eFire, .eClose, .eFire, .eClose] =
      [1000, 2000, 4000, 8000] ∧
    (cmRun initCM es).delay ≤ 30000 ∧
    ((cmRun initCM es).phase = .opened →
      closeDelays (cmRun initCM es)
        [.eClose, .eFire, .eClose, .eFire, .eClose, .eFire, .eClose] =
        [1000, 2000, 4000, 8000]) := by
  have hinv := cmInv_run es initCM cmInv_init
  refine ⟨rfl, by decide, hinv.2.2.1, fun h => ?_⟩
  exact closeDelays_from_opened _ h (hinv.2.2.2 h)

/-- C4 witness: after the concrete run close/retry/open, the channel is
opened and the next four failures observe 1000, 2000, 4000, 8000. -/
theorem backoff_delays_witness :
    (cmRun initCM [.eClose, .eFire, .eOpen]).phase = .opened ∧
    closeDelays (cmRun initCM [.eClose, .eFire, .eOpen])
      [.eClose, .eFire, .eClose, .eFire, .eClose, .eFire, .eClose] =
      [1000, 2000, 4000, 8000] :=
  ⟨by decide, (backoff_delays [.eClose, .eFire, .eOpen]).2.2.2 (by decide)⟩

/-- C5: in every state reachable by the connection manager, at most one
reconnection timer is pending — exactly one while awaiting a
reconnection and none otherwise; in particular none is pending whenever
a new `open()` is in progress (the connecting phase). -/
theorem single_pending_timer (es : List CMEvent) :
    (cmRun initCM es).pending ≤ 1 ∧
    (cmRun initCM es).pending =
      (if (cmRun initCM es).phase = .waiting then 1 else 0) := by
  have hinv := cmInv_run es initCM cmInv_init
  refine ⟨?_, hinv.1⟩
  rw [hinv.1]
  split <;> omega

/-- C6 counterexample: the thought stream prepends, so its eviction end
— the last child — holds the *oldest*-inserted entry, not the newest.
Inserting `t21` into the full stream (inserted order `t1`, …, `t20`)
evicts `t1`, the oldest entry, while the newest entries `t21` and `t20`
survive. -/
theorem thought_eviction_cex :
    thoughtBuf20.length = 20 ∧
    addThought thoughtBuf20 "t21" =
      ["t21", "t20", "t19", "t18", "t17", "t16", "t15", "t14", "t13",
       "t12", "t11", "t10", "t9", "t8", "t7", "t6", "t5", "t4", "t3",
       "t2"] ∧
    "t1" ∈ thoughtBuf20 ∧
    "t1" ∉ addThought thoughtBuf20 "t21" ∧
    "t21" ∈ addThought thoughtBuf20 "t21" ∧
    "t20" ∈ addThought thoughtBuf20 "t21" := by decide

/-- C6 amended: the log buffer never exceeds 200 entries and, on
insertion into a full buffer, evicts exactly its first (oldest) entry;
the thought buffer never exceeds 20 entries (from a within-capacity
state) and, on insertion into a full buffer, evicts exactly its last
entry — the end opposite to insertion, which holds the oldest-inserted
thought, the newly prepended entry staying at the front. -/
theorem bounded_buffers_amended :
    (∀ (l : List String) (x : String), (addLog l x).length ≤ 200) ∧
    (∀ (l : List String) (x : String), l.length ≤ 20 →
      (addThought l x).length ≤ 20) ∧
    (∀ (l : List String) (x : String), l.length = 200 →
      addLog l x = l.tail ++ [x]) ∧
    (∀ (l : List String) (x : String), l.length = 20 →
      addThought l x = x :: l.dropLast) := by
  refine ⟨?_, ?_, ?_, ?_⟩
  · intro l x
    exact evictFront_length_le logCap (l ++ [x])
  · intro l x h
    simp only [addThought, thoughtCap]
    split
    · rw [List.length_dropLast]
      simp only [List.length_cons]
      omega
    · next hle =>
      simp only [List.length_cons] at hle ⊢
      omega
  · intro l x h
    cases l with
    | nil => simp at h
    | cons a t =>
      simp only [List.length_cons] at h
      have h1 : (a :: (t ++ [x])).length > logCap := by
        simp [logCap]
        omega
      show evictFront logCap ((a :: t) ++ [x]) = (a :: t).tail ++ [x]
      rw [List.cons_append, evictFront, if_pos h1]
      exact evictFront_of_length_le (by simp [logCap]; omega)
  · intro l x h
    have hgt : (x :: l).length > thoughtCap := by
      simp [thoughtCap, h]
    simp only [addThought, if_pos hgt]
    cases l with
    | nil => simp at h
    | cons a t => rfl

/-- C6 amended witness: a full 20-entry thought stream stays at 20 after
insertion; a full 200-entry log drops exactly its first entry; the full
thought stream drops exactly its last entry. -/
theorem bounded_buffers_amended_witness :
    (addThought (List.replicate 20 "a") "b").length ≤ 20 ∧
    addLog (List.replicate 200 "c") "d" =
      (List.replicate 200 "c").tail ++ ["d"] ∧
    addThought (List.replicate 20 "a") "b" =
      "b" :: (List.replicate 20 "a").dropLast := by
  refine ⟨?_, ?_, ?_⟩
  · exact bounded_buffers_amended.2.1 _ _ (by rw [List.length_replicate])
  · exact bounded_buffers_amended.2.2.1 _ _ (by rw [List.length_replicate])
  · exact bounded_buffers_amended.2.2.2 _ _ (by rw [List.length_replicate])

/-- C7: a `log` event always appends its content to the operational
buffer, and inserts into the thought buffer exactly the content
extracted after the heartbeat marker, exactly when the content contains
the marker and the extracted remainder is non-empty; it touches nothing
else. -/
theorem log_dispatch_heartbeat (st : UIState) (c : String) :
    (dispatch (.log c) st).logs = addLog st.logs c ∧
    (dispatch (.log c) st).thoughts =
      (if hasHeartbeat c = true ∧ extractThought c ≠ "" then
        addThought st.thoughts (extractThought c)
      else st.thoughts) ∧
    (dispatch (.log c) st).messages = st.messages ∧
    (dispatch (.log c) st).status = st.status := by
  by_cases h1 : hasHeartbeat c = true <;>
    by_cases h2 : extractThought c = "" <;>
      simp [dispatch, h1, h2]

/-- C8: `sendMessage` sends nothing and changes nothing when the trimmed
input is empty; when the channel is not open it sends nothing, keeps the
input, and only logs a local notice to the operational buffer; and a
frame reaches the channel only when the trimmed text is non-empty and
the channel is open (and it is exactly that text). -/
theorem sendMessage_validation (st : ChatState) :
    (jsTrim st.inputValue = "" → sendMessage st = st) ∧
    (jsTrim st.inputValue ≠ "" → st.ws ≠ some wsOPEN →
      sendMessage st = { st with logs := addLog st.logs cannotSendNotice }) ∧
    ((sendMessage st).sent ≠ st.sent →
      jsTrim st.inputValue ≠ "" ∧ st.ws = some wsOPEN ∧
      (sendMessage st).sent = st.sent ++ [jsTrim st.inputValue]) := by
  refine ⟨?_, ?_, ?_⟩
  · intro h
    simp [sendMessage, h]
  · intro h1 h2
    simp [sendMessage, h1, h2]
  · intro hne
    by_cases h1 : jsTrim st.inputValue = ""
    · exact absurd (by simp [sendMessage, h1]) hne
    · by_cases h2 : st.ws = some wsOPEN
      · exact ⟨h1, h2, by simp [sendMessage, h1, h2]⟩
      · exact absurd (by simp [sendMessage, h1, h2]) hne

/-- C8 witness: blank input is a strict no-op; sending with no socket
only logs the notice; with text and an open socket exactly the trimmed
text is transmitted. -/
theorem sendMessage_validation_witness :
    sendMessage ⟨" ", some 1, [], [], [], "IDLE"⟩ =
      ⟨" ", some 1, [], [], [], "IDLE"⟩ ∧
    (sendMessage ⟨"hi", none, [], [], [], "IDLE"⟩).logs =
      addLog ([] : List String) cannotSendNotice ∧
    (sendMessage ⟨"hi", some 1, [], [], [], "IDLE"⟩).sent =
      ([] : List String) ++ [jsTrim "hi"] := by
  refine ⟨?_, ?_, ?_⟩
  · exact (sendMessage_validation _).1 (by decide)
  · exact congrArg ChatState.logs
      ((sendMessage_validation _).2.1 (by decide) (by decide))
  · exact ((sendMessage_validation _).2.2 (by decide)).2.2

/-- C9: once the initial seed has happened (`network` exists), a
non-forced `loadGraph` invocation — such as the one from switching to
the graph view — leaves the whole synchronizer state unchanged, whatever
the fetch returns. -/
theorem nonforced_loadGraph_noop (hc : Bool) (resp : Option GData)
    (g : GSync) (h : g.network = true) :
    loadGraph false hc resp g = g := by
  unfold loadGraph
  cases hc <;> cases resp <;> simp [h]

/-- C9 witness: a non-forced pass on a seeded empty state ignores a
fetch that returns a node and an edge. -/
theorem nonforced_loadGraph_noop_witness :
    loadGraph false true (some ⟨[⟨"n1", "lbl"⟩], [⟨"n1", "n1", "rel"⟩]⟩)
      ⟨true, ⟨[], []⟩⟩ = ⟨true, ⟨[], []⟩⟩ :=
  nonforced_loadGraph_noop true _ _ rfl

/-- C10: a goal titled exactly `"Idle"` renders identically to an absent
goal: the no-active-goal title, the dimmed style, and the `System Idle`
placeholder instead of the goal's subtasks. -/
theorem idle_goal_renders_as_no_goal (ts : List Subtask) :
    renderGoal (some ⟨"Idle", ts⟩) = renderGoal none ∧
    (renderGoal (some ⟨"Idle", ts⟩)).title = "No active goal" ∧
    (renderGoal (some ⟨"Idle", ts⟩)).subtasks = SubtaskView.systemIdle := by
  refine ⟨?_, ?_, ?_⟩ <;> simp [renderGoal]

end Dross
